import Mathlib

/-!
# Promotion-panel decision engine: a shallow embedding

This file embeds the decision-aggregation engine of the promotion-panel
repository (src/logic.py, the relevant tables and upserts of src/db.py, and
the approver submission handler of src/ui_approver.py) into Lean, and proves
the specified properties of the engine against that embedding.

Modelling conventions:
* Python floats are modelled as rationals (`ℚ`); all weights and thresholds in
  the source are small decimal constants, and every arithmetic operation the
  engine performs on them is exact at these values.
* Python dicts are modelled as association lists with insert-overwrites
  semantics (`dictInsert`) and first-match lookup (`dictLookup`); keys are
  unique by construction, as in a Python dict.
* Python string operations used by the source (`str.strip`, `str.split` on a
  separator, `str.replace` of the two-character arrow, regex search for an
  arrow or a digit run) are modelled directly on character lists.
* Functions that can raise in Python return `Except String α`.
* SQLite tables are modelled as lists of row structures; each `db.py` helper
  opens its own connection and commits on exit, so each helper call is one
  separately committed transaction on the modelled state.
-/

namespace PromotionPanel

/-- Equality of `Except` results is decidable when it is on both sides. -/
instance {ε α : Type} [DecidableEq ε] [DecidableEq α] : DecidableEq (Except ε α) :=
  fun x y =>
  match x, y with
  | .error a, .error b => decidable_of_iff (a = b) (by simp)
  | .error _, .ok _ => isFalse (by simp)
  | .ok _, .error _ => isFalse (by simp)
  | .ok a, .ok b => decidable_of_iff (a = b) (by simp)

/-- Python dict lookup: first (unique) binding of the key, `None` if absent. -/
def dictLookup {κ α : Type} [BEq κ] (m : List (κ × α)) (k : κ) : Option α :=
  (m.find? (fun kv => kv.1 == k)).map (fun kv => kv.2)

/-- Python dict insertion: overwrite in place if the key exists, else append.
Keeps keys unique and preserves insertion order, like a Python dict. -/
def dictInsert {κ α : Type} [BEq κ] (m : List (κ × α)) (k : κ) (v : α) : List (κ × α) :=
  if (m.find? (fun kv => kv.1 == k)).isSome then
    m.map (fun kv => if kv.1 == k then (k, v) else kv)
  else m ++ [(k, v)]

/-- In-place mutation of the list stored under a key, as in
`critical_by_path[path].append(i)`. -/
def dictAppend {κ : Type} [BEq κ] (m : List (κ × List Nat)) (k : κ) (i : Nat) :
    List (κ × List Nat) :=
  m.map (fun kv => if kv.1 == k then (kv.1, kv.2 ++ [i]) else kv)

/-! ## Python string helpers used by src/logic.py, on character lists -/

/-- Python `str.replace("->", "→")`: left-to-right non-overlapping rewrite. -/
def replaceArrow : List Char → List Char
  | [] => []
  | '-' :: '>' :: rest => '→' :: replaceArrow rest
  | c :: rest => c :: replaceArrow rest

/-- Python `s.split("→")` for the one-character separator. -/
def splitOnArrow : List Char → List (List Char)
  | [] => [[]]
  | '→' :: rest => [] :: splitOnArrow rest
  | c :: rest =>
    match splitOnArrow rest with
    | [] => [[c]]
    | g :: gs => (c :: g) :: gs

/-- ASCII whitespace, the characters `str.strip()` removes in the rule data. -/
def isSpaceChar (c : Char) : Bool :=
  c == ' ' || c == '\t' || c == '\n' || c == '\r'

/-- Python `str.strip()`. -/
def pyStrip (cs : List Char) : List Char :=
  ((cs.dropWhile isSpaceChar).reverse.dropWhile isSpaceChar).reverse

/-- The regex search `(→|->|➜|⇒)` of `_has_arrow` in src/logic.py. -/
def hasArrowChars : List Char → Bool
  | [] => false
  | '-' :: '>' :: _ => true
  | '→' :: _ => true
  | '➜' :: _ => true
  | '⇒' :: _ => true
  | _ :: rest => hasArrowChars rest

/-- `_persian_to_english_digits` in src/logic.py, one character. -/
def persianToEnglishDigit (c : Char) : Char :=
  if c = '۰' then '0' else if c = '۱' then '1' else if c = '۲' then '2'
  else if c = '۳' then '3' else if c = '۴' then '4' else if c = '۵' then '5'
  else if c = '۶' then '6' else if c = '۷' then '7' else if c = '۸' then '8'
  else if c = '۹' then '9' else c

/-- Value of a maximal leading digit run, accumulator form. -/
def takeDigitRun : List Char → Nat → Nat
  | [], acc => acc
  | c :: rest, acc =>
    if c.isDigit then takeDigitRun rest (acc * 10 + (c.toNat - 48)) else acc

/-- First maximal digit run in a character list, the regex `(\d+)` search. -/
def firstIntRun : List Char → Option Nat
  | [] => Option.none
  | c :: rest =>
    if c.isDigit then some (takeDigitRun (c :: rest) 0) else firstIntRun rest

/-- `_extract_first_int` in src/logic.py: Persian-digit normalization, then the
first digit run; `None` on the empty string or when no digit occurs. -/
def extract_first_int (s : String) : Option Nat :=
  if s = "" then Option.none
  else firstIntRun (s.toList.map persianToEnglishDigit)

/-! ## src/logic.py: constants and pure decision functions -/

/-- `RATING_OPTIONS` in src/logic.py. -/
def RATING_OPTIONS : List String :=
  ["Demonstrated", "Partially Demonstrated", "Not Demonstrated"]

/-- `THRESHOLD_DEMO` in src/logic.py: the exact value of the float literal
`0.70` (written `mkRat` so concrete comparisons reduce in the kernel). -/
def THRESHOLD_DEMO : ℚ := mkRat 70 100

/-- `THRESHOLD_PARTIAL` in src/logic.py: the exact value of `0.40`. -/
def THRESHOLD_PARTIAL : ℚ := mkRat 40 100

/-- `LEVEL_WEIGHTS` in src/logic.py: role weights keyed by target level, each
`mkRat n 100` the exact value of the source's decimal literal `0.n`. -/
def LEVEL_WEIGHTS : List (String × List (String × ℚ)) :=
  [("Senior Specialist",
     [("Line Manager", mkRat 10 100), ("Second Line Manager", mkRat 35 100),
      ("OPD", mkRat 15 100), ("HRBP", mkRat 20 100),
      ("External Stakeholder", mkRat 20 100)]),
   ("Lead Expert",
     [("Line Manager", mkRat 10 100), ("Second Line Manager", mkRat 30 100),
      ("OPD", mkRat 10 100), ("HRBP", mkRat 20 100),
      ("External Stakeholder 1", mkRat 15 100),
      ("External Stakeholder 2", mkRat 15 100)]),
   ("Advanced Expert",
     [("Line Manager", mkRat 10 100), ("Department Deputy", mkRat 30 100),
      ("OPD", mkRat 10 100), ("HRBP", mkRat 20 100),
      ("External Stakeholder 1", mkRat 15 100),
      ("External Stakeholder 2", mkRat 15 100)]),
   ("Principal",
     [("Line Manager", mkRat 10 100), ("Department Deputy", mkRat 30 100),
      ("HR Deputy", mkRat 15 100), ("HRBP Director", mkRat 15 100),
      ("External Stakeholder 1", mkRat 15 100),
      ("External Stakeholder 2", mkRat 15 100)]),
   ("Distinguished",
     [("Department Deputy", mkRat 10 100), ("CEO Deputy", mkRat 30 100),
      ("HR Deputy", mkRat 15 100), ("HRBP Director", mkRat 15 100),
      ("External Stakeholder 1", mkRat 15 100),
      ("External Stakeholder 2", mkRat 15 100)])]

/-- `Rules` dataclass in src/logic.py. -/
structure Rules where
  dimensions : List String
  level_paths : List String
  min_demo_by_path : List (String × Nat)
  critical_by_path : List (String × List Nat)
deriving DecidableEq

/-- `level_path_to_target_level` in src/logic.py: replace `->` by `→`, split on
`→`, strip each part, require at least two parts, return the last. -/
def level_path_to_target_level (level_path : String) : Except String String :=
  let parts := (splitOnArrow (replaceArrow level_path.toList)).map pyStrip
  if parts.length < 2 then .error ("Invalid level_path: " ++ level_path)
  else .ok (String.mk (parts.getLastD []))

/-- `get_weight` in src/logic.py: weight of an evaluator role under the target
level of a level path; missing roles default to `0.0`, an unknown target level
raises `KeyError`. -/
def get_weight (level_path evaluator_role : String) : Except String ℚ :=
  match level_path_to_target_level level_path with
  | .error e => .error e
  | .ok target =>
    match dictLookup LEVEL_WEIGHTS target with
    | Option.none => .error ("KeyError: " ++ target)
    | some wmap => .ok ((dictLookup wmap evaluator_role).getD 0)

/-- `aggregate_dimension_demo_weight` in src/logic.py: sum of the role weights
of exactly the votes rated `"Demonstrated"`. -/
def aggregate_dimension_demo_weight : List (String × String) → String → Except String ℚ
  | [], _ => .ok 0
  | (role, rating) :: rest, level_path =>
    if rating = "Demonstrated" then
      match get_weight level_path role with
      | .error e => .error e
      | .ok w =>
        match aggregate_dimension_demo_weight rest level_path with
        | .error e => .error e
        | .ok s => .ok (w + s)
    else aggregate_dimension_demo_weight rest level_path

/-- `dimension_result_from_demo_weight` in src/logic.py. -/
def dimension_result_from_demo_weight (demo_weight : ℚ) : String :=
  if THRESHOLD_DEMO ≤ demo_weight then "Demonstrated"
  else if THRESHOLD_PARTIAL ≤ demo_weight then "Partially Demonstrated"
  else "Not Demonstrated"

/-- The critical-dimension loop of `decision_from_dimension_results`:
`.ok true` when some critical index holds a non-`"Demonstrated"` result (the
loop returns `"Reject"`), short-circuiting at the first such index; an
out-of-range index raises `IndexError` as Python list indexing does. -/
def criticalVeto (results : List String) : List Nat → Except String Bool
  | [] => .ok false
  | idx :: rest =>
    match results[idx]? with
    | Option.none => .error ("IndexError: " ++ toString idx)
    | some r => if r ≠ "Demonstrated" then .ok true else criticalVeto results rest

/-- `decision_from_dimension_results` in src/logic.py: critical-dimension veto,
then the minimum-demonstrated-count threshold. -/
def decision_from_dimension_results (rules : Rules) (results : List String)
    (level_path : String) : Except String String :=
  match dictLookup rules.critical_by_path level_path with
  | Option.none => .error ("KeyError: " ++ level_path)
  | some critical =>
    match dictLookup rules.min_demo_by_path level_path with
    | Option.none => .error ("KeyError: " ++ level_path)
    | some min_demo =>
      match criticalVeto results critical with
      | .error e => .error e
      | .ok true => .ok "Reject"
      | .ok false =>
        let demo_count := (results.filter (fun r => r == "Demonstrated")).length
        .ok (if min_demo ≤ demo_count then "Confirmed" else "Reject")

/-! ## src/db.py: tables and the store operations the engine uses

Tables are lists of rows in insertion order; the `ORDER BY created_at /
submitted_at` of the source queries is modelled as that stored order (the
engine's aggregation is order-insensitive over exact rationals). -/

/-- A row of the `users` table (the columns the engine reads). -/
structure User where
  id : Nat
  role : String
deriving DecidableEq

/-- A row of the `evaluations` table (the columns the engine reads). -/
structure Evaluation where
  id : Nat
  level_path : String
  target_level : String
  status : String
deriving DecidableEq

/-- A row of the `assignments` table. -/
structure Assignment where
  evaluation_id : Nat
  user_id : Nat
  evaluator_role : String
deriving DecidableEq

/-- A row of the `responses` table; `dims` models the eight `dim1..dim8`
columns positionally. -/
structure ResponseRow where
  evaluation_id : Nat
  user_id : Nat
  submitted_at : String
  dims : List String
  comment : Option String
deriving DecidableEq

/-- A row of the `approver_responses` table. -/
structure ApproverRow where
  evaluation_id : Nat
  approver_user_id : Nat
  submitted_at : String
  dims : List String
  comment : Option String
deriving DecidableEq

/-- A row of the `decisions` table. -/
structure DecisionRow where
  evaluation_id : Nat
  committee_decision : Option String
  final_decision : Option String
  decided_by : Option Nat
  decided_at : Option String
deriving DecidableEq

/-- The persistent store. -/
structure DB where
  users : List User
  evaluations : List Evaluation
  assignments : List Assignment
  responses : List ResponseRow
  approver_responses : List ApproverRow
  decisions : List DecisionRow
deriving DecidableEq

/-- `db.get_evaluation`. -/
def get_evaluation (db : DB) (eval_id : Nat) : Option Evaluation :=
  db.evaluations.find? (fun e => e.id == eval_id)

/-- `db.list_assignments_for_evaluation`: assignments of the evaluation whose
user row exists (the `JOIN users` of the query). -/
def list_assignments_for_evaluation (db : DB) (eval_id : Nat) : List Assignment :=
  db.assignments.filter (fun a =>
    a.evaluation_id == eval_id && db.users.any (fun u => u.id == a.user_id))

/-- `db.list_responses_for_evaluation`: responses of the evaluation joined
with `users` and with `assignments` on the (evaluation, user) pair. -/
def list_responses_for_evaluation (db : DB) (eval_id : Nat) : List ResponseRow :=
  db.responses.filter (fun r =>
    r.evaluation_id == eval_id
      && db.users.any (fun u => u.id == r.user_id)
      && db.assignments.any (fun a =>
            a.evaluation_id == r.evaluation_id && a.user_id == r.user_id))

/-- `db.get_approver_response`: the unique row for the evaluation, if any. -/
def get_approver_response (db : DB) (eval_id : Nat) : Option ApproverRow :=
  db.approver_responses.find? (fun a => a.evaluation_id == eval_id)

/-- `db.get_decision`. -/
def get_decision (db : DB) (eval_id : Nat) : Option DecisionRow :=
  db.decisions.find? (fun d => d.evaluation_id == eval_id)

/-- `db.upsert_response`: `INSERT .. ON CONFLICT(evaluation_id, user_id) DO
UPDATE`, overwriting ratings, comment and submission time of the conflicting
row; `now` is the clock value `now_iso()` of the call. -/
def upsert_response (db : DB) (eval_id user_id : Nat) (dims : List String)
    (comment : Option String) (now : String) : DB :=
  if db.responses.any (fun r => r.evaluation_id == eval_id && r.user_id == user_id) then
    { db with responses := db.responses.map (fun r =>
        if r.evaluation_id == eval_id && r.user_id == user_id then
          { r with submitted_at := now, dims := dims, comment := comment }
        else r) }
  else
    { db with responses := db.responses ++
        [{ evaluation_id := eval_id, user_id := user_id, submitted_at := now,
           dims := dims, comment := comment }] }

/-- `db.upsert_approver_response`: `ON CONFLICT(evaluation_id) DO UPDATE`,
also overwriting the approver id. -/
def upsert_approver_response (db : DB) (eval_id approver_user_id : Nat)
    (dims : List String) (comment : Option String) (now : String) : DB :=
  if db.approver_responses.any (fun a => a.evaluation_id == eval_id) then
    { db with approver_responses := db.approver_responses.map (fun a =>
        if a.evaluation_id == eval_id then
          { a with approver_user_id := approver_user_id, submitted_at := now,
                   dims := dims, comment := comment }
        else a) }
  else
    { db with approver_responses := db.approver_responses ++
        [{ evaluation_id := eval_id, approver_user_id := approver_user_id,
           submitted_at := now, dims := dims, comment := comment }] }

/-- `db.set_decision` with keyword arguments modelled as options. -/
def set_decision (db : DB) (eval_id : Nat)
    (committee_decision final_decision : Option String)
    (decided_by : Option Nat) (now : String) : DB :=
  let db1 := match committee_decision with
    | Option.none => db
    | some c =>
      { db with decisions := db.decisions.map (fun d =>
          if d.evaluation_id == eval_id then { d with committee_decision := some c }
          else d) }
  match final_decision with
  | Option.none => db1
  | some f =>
    { db1 with decisions := db1.decisions.map (fun d =>
        if d.evaluation_id == eval_id then
          { d with final_decision := some f, decided_by := decided_by,
                   decided_at := some now }
        else d) }

/-- `db.set_evaluation_status`. -/
def set_evaluation_status (db : DB) (eval_id : Nat) (status : String) : DB :=
  { db with evaluations := db.evaluations.map (fun e =>
      if e.id == eval_id then { e with status := status } else e) }

/-! ## src/logic.py: committee aggregation and approver decision -/

/-- One entry of the `per_dim` output of `committee_aggregate`. -/
structure PerDimOut where
  dimension : String
  demo_weight : ℚ
  result : String
deriving DecidableEq

/-- The dictionary returned by `committee_aggregate`. -/
structure AggResult where
  per_dim : List PerDimOut
  committee_decision : String
  missing_count : Nat
  responded_count : Nat
  assigned_count : Nat
deriving DecidableEq

/-- The `role_by_user` dict of `committee_aggregate`, built from the
assignments in query order. -/
def role_by_user (assignments : List Assignment) : List (Nat × String) :=
  assignments.foldl (fun m a => dictInsert m a.user_id a.evaluator_role) []

/-- The `per_dim_votes[i]` list of `committee_aggregate`: one
(assignment role, rating at index `i`) pair per response, the role defaulting
to `""` for a user with no assignment entry. -/
def per_dim_votes (assignments : List Assignment) (responses : List ResponseRow)
    (i : Nat) : List (String × String) :=
  responses.map (fun r =>
    ((dictLookup (role_by_user assignments) r.user_id).getD "", r.dims.getD i ""))

/-- The `for i in range(8)` aggregation loop of `committee_aggregate`, over an
explicit index list; indexing `rules.dimensions` out of range raises. -/
def agg_dims (rules : Rules) (level_path : String) (assignments : List Assignment)
    (responses : List ResponseRow) : List Nat → Except String (List PerDimOut)
  | [] => .ok []
  | i :: rest =>
    match aggregate_dimension_demo_weight (per_dim_votes assignments responses i) level_path with
    | .error e => .error e
    | .ok dw =>
      match rules.dimensions[i]? with
      | Option.none => .error ("IndexError: " ++ toString i)
      | some dname =>
        match agg_dims rules level_path assignments responses rest with
        | .error e => .error e
        | .ok tail =>
          .ok ({ dimension := dname, demo_weight := dw,
                 result := dimension_result_from_demo_weight dw } :: tail)

/-- The `all_assigned` set of `committee_aggregate`. -/
def assigned_ids (assignments : List Assignment) : Finset Nat :=
  (assignments.map (fun a => a.user_id)).toFinset

/-- The `responded` set of `committee_aggregate`. -/
def responded_ids (responses : List ResponseRow) : Finset Nat :=
  (responses.map (fun r => r.user_id)).toFinset

/-- Body of `committee_aggregate` after the two store reads, over the
evaluation row and the two fetched lists. -/
def committee_aggregate_lists (rules : Rules) (ev : Evaluation)
    (assignments : List Assignment) (responses : List ResponseRow) :
    Except String AggResult :=
  if (assigned_ids assignments).Nonempty ∧
      responded_ids responses ≠ assigned_ids assignments then
    .ok { per_dim := [], committee_decision := "Pending",
          missing_count := (assigned_ids assignments \ responded_ids responses).card,
          responded_count := (responded_ids responses).card,
          assigned_count := (assigned_ids assignments).card }
  else
    match agg_dims rules ev.level_path assignments responses (List.range 8) with
    | .error e => .error e
    | .ok per_dim_out =>
      if ev.target_level = "Principal" ∨ ev.target_level = "Distinguished" then
        .ok { per_dim := per_dim_out, committee_decision := "RecommendationOnly",
              missing_count := 0, responded_count := responses.length,
              assigned_count := assignments.length }
      else
        match decision_from_dimension_results rules
            (per_dim_out.map (fun p => p.result)) ev.level_path with
        | .error e => .error e
        | .ok d =>
          .ok { per_dim := per_dim_out, committee_decision := d,
                missing_count := 0, responded_count := responses.length,
                assigned_count := assignments.length }

/-- `committee_aggregate` in src/logic.py. -/
def committee_aggregate (rules : Rules) (db : DB) (eval_id : Nat) :
    Except String AggResult :=
  match get_evaluation db eval_id with
  | Option.none => .error "Evaluation not found"
  | some ev =>
    committee_aggregate_lists rules ev
      (list_assignments_for_evaluation db eval_id)
      (list_responses_for_evaluation db eval_id)

/-- One entry of the `per_dim` output of `approver_final_decision`. -/
structure FinalPerDim where
  dimension : String
  result : String
deriving DecidableEq

/-- The dictionary returned by `approver_final_decision`. -/
structure FinalResult where
  final_decision : String
  per_dim : List FinalPerDim
deriving DecidableEq

/-- The `dims` list read from the eight `dim1..dim8` columns of an approver
response row. -/
def approver_dims (appr : ApproverRow) : List String :=
  [appr.dims.getD 0 "", appr.dims.getD 1 "", appr.dims.getD 2 "",
   appr.dims.getD 3 "", appr.dims.getD 4 "", appr.dims.getD 5 "",
   appr.dims.getD 6 "", appr.dims.getD 7 ""]

/-- The `per_dim` list comprehension of `approver_final_decision`. -/
def final_per_dim (rules : Rules) (dims : List String) :
    List Nat → Except String (List FinalPerDim)
  | [] => .ok []
  | i :: rest =>
    match rules.dimensions[i]? with
    | Option.none => .error ("IndexError: " ++ toString i)
    | some dname =>
      match final_per_dim rules dims rest with
      | .error e => .error e
      | .ok tail => .ok ({ dimension := dname, result := dims.getD i "" } :: tail)

/-- `approver_final_decision` in src/logic.py. -/
def approver_final_decision (rules : Rules) (db : DB) (eval_id : Nat) :
    Except String FinalResult :=
  match get_evaluation db eval_id with
  | Option.none => .error "Evaluation not found"
  | some ev =>
    match get_approver_response db eval_id with
    | Option.none => .ok { final_decision := "Pending", per_dim := [] }
    | some appr =>
      match decision_from_dimension_results rules (approver_dims appr) ev.level_path with
      | .error e => .error e
      | .ok final =>
        match final_per_dim rules (approver_dims appr) (List.range 8) with
        | .error e => .error e
        | .ok pd => .ok { final_decision := final, per_dim := pd }

/-! ## src/ui_approver.py: the approver submission handler

In src/db.py every helper opens its own sqlite connection and commits it on
exit (`get_conn`), so the handler body of `approver_page` — upsert the
approver response, recompute the final decision, write it with
`set_decision`, and flip the status with `set_evaluation_status` — runs as a
sequence of separately committed transactions.  `approver_submit_states`
lists the store states observable by a concurrent reader between those
commits, in order. -/

def approver_submit_states (rules : Rules) (db : DB) (eval_id uid : Nat)
    (final_dims : List String) (comment : Option String) (now : String) :
    List DB :=
  if final_dims.length ≠ 8 then [db]
  else
    let db1 := upsert_approver_response db eval_id uid final_dims comment now
    match approver_final_decision rules db1 eval_id with
    | .error _ => [db, db1]
    | .ok appr =>
      let db2 := set_decision db1 eval_id Option.none (some appr.final_decision)
        (some uid) now
      let db3 := set_evaluation_status db2 eval_id "CLOSED"
      [db, db1, db2, db3]

/-! ## src/logic.py: `load_rules_from_sheet2`

The workbook-location logic (`_find_rules_xlsx`) is file-system I/O outside
the decision engine; the loader is embedded over an abstract Sheet2, a
function from (row, column) to cell value.  A numeric cell covers Python
`int` and `float`; `pyIntOfRat` is Python `int()` truncation.  The decimal
rendering `str()` of a non-integral float, which the loader could only meet
through `_norm` on a numeric header or min-demo cell, is approximated by the
rational's own rendering; no theorem below depends on it. -/

/-- One cell of the worksheet. -/
inductive CellValue where
  | vnone
  | vnum (q : ℚ)
  | vstr (s : String)
deriving DecidableEq

/-- A worksheet: `ws.cell(row, col).value`. -/
def Sheet : Type := Nat → Nat → CellValue

/-- Python `int()` on a float: truncation toward zero. -/
def pyIntOfRat (q : ℚ) : Int :=
  if 0 ≤ q then q.floor else q.ceil

/-- `str()` of a numeric cell (see the section comment). -/
def pyNumRepr (q : ℚ) : String :=
  if q.den = 1 then toString q.num else toString q

/-- `_norm` in src/logic.py: `""` for `None`, else `str(v).strip()`. -/
def norm_cell : CellValue → String
  | .vnone => ""
  | .vnum q => String.mk (pyStrip (pyNumRepr q).toList)
  | .vstr s => String.mk (pyStrip s.toList)

/-- The level-path columns B..F of the fixed Sheet2 layout. -/
def LEVEL_COLS : List Nat := [2, 3, 4, 5, 6]

/-- The dimension rows 12..19 of the fixed Sheet2 layout. -/
def DIM_ROWS : List Nat := [12, 13, 14, 15, 16, 17, 18, 19]

/-- The minimum-demonstrated rows 25..29 of the fixed Sheet2 layout. -/
def MIN_DEMO_ROWS : List Nat := [25, 26, 27, 28, 29]

/-- The row-11 loop of the loader: each level-path header cell must be
non-empty and contain an arrow after `->` normalization. -/
def load_level_paths (ws : Sheet) : List Nat → Except String (List String)
  | [] => .ok []
  | c :: rest =>
    let v := String.mk (replaceArrow (norm_cell (ws 11 c)).toList)
    if v = "" ∨ hasArrowChars v.toList = false then
      .error ("Sheet2: expected level path with arrow at row 11 col " ++ toString c)
    else
      match load_level_paths ws rest with
      | .error e => .error e
      | .ok vs => .ok (v :: vs)

/-- The A12:A19 loop of the loader: each dimension name must be non-empty. -/
def load_dimensions (ws : Sheet) : List Nat → Except String (List String)
  | [] => .ok []
  | r :: rest =>
    let d := norm_cell (ws r 1)
    if d = "" then .error ("Sheet2: expected dimension name in A" ++ toString r)
    else
      match load_dimensions ws rest with
      | .error e => .error e
      | .ok ds => .ok (d :: ds)

/-- One cell of the critical matrix: `int(raw)` for a numeric cell, else the
normalized string if it is exactly `"1"` or `"0"`; anything else yields no
value (`val = None` in the source) and the cell is skipped. -/
def critical_cell_val (raw : CellValue) : Option Int :=
  match raw with
  | .vnum q => some (pyIntOfRat q)
  | _ =>
    let t := norm_cell raw
    if t = "1" ∨ t = "0" then some (if t = "1" then 1 else 0) else Option.none

/-- One row of the critical-matrix loop: append dimension index `i` to every
level path whose cell in row `r` holds the value 1. -/
def load_critical_row (ws : Sheet) (r i : Nat) (cols_paths : List (Nat × String))
    (m : List (String × List Nat)) : List (String × List Nat) :=
  cols_paths.foldl (fun m cp =>
    match critical_cell_val (ws r cp.1) with
    | some v => if v = 1 then dictAppend m cp.2 i else m
    | Option.none => m) m

/-- The full critical-matrix loop (rows 12..19 by columns B..F).  It is a
total function: no cell content can make it fail. -/
def load_critical (ws : Sheet) (level_paths : List String) : List (String × List Nat) :=
  let init := level_paths.foldl (fun m p => dictInsert m p []) []
  (List.range 8).foldl
    (fun m i => load_critical_row ws (12 + i) i (LEVEL_COLS.zip level_paths) m) init

/-- The rows-25..29 loop of the loader: skip rows with an empty level-path
cell, otherwise require an extractable integer in column B. -/
def load_min_demo (ws : Sheet) : List Nat → List (String × Nat) →
    Except String (List (String × Nat))
  | [], m => .ok m
  | r :: rest, m =>
    let lp := String.mk (replaceArrow (norm_cell (ws r 1)).toList)
    if lp = "" then load_min_demo ws rest m
    else
      match extract_first_int (norm_cell (ws r 2)) with
      | Option.none =>
        .error ("Sheet2: could not extract min demonstrated from B" ++ toString r)
      | some n => load_min_demo ws rest (dictInsert m lp n)

/-- The final completeness check: every level path needs a min-demo entry. -/
def check_min_demo_paths (level_paths : List String) (m : List (String × Nat)) :
    Except String Unit :=
  if level_paths.all (fun p => (dictLookup m p).isSome) then .ok ()
  else .error "Sheet2: Min Demonstrated missing for paths"

/-- `load_rules_from_sheet2` in src/logic.py, over an abstract Sheet2. -/
def load_rules_from_sheet2 (ws : Sheet) : Except String Rules :=
  match load_level_paths ws LEVEL_COLS with
  | .error e => .error e
  | .ok level_paths =>
    match load_dimensions ws DIM_ROWS with
    | .error e => .error e
    | .ok dimensions =>
      if dimensions.length ≠ 8 then
        .error "Sheet2: expected 8 dimensions (A12:A19)"
      else
        let critical := load_critical ws level_paths
        match load_min_demo ws MIN_DEMO_ROWS [] with
        | .error e => .error e
        | .ok md =>
          match check_min_demo_paths level_paths md with
          | .error e => .error e
          | .ok _ =>
            .ok { dimensions := dimensions, level_paths := level_paths,
                  min_demo_by_path := md, critical_by_path := critical }

/-! ## Supporting lemmas -/

/-- The critical-dimension loop returns, for in-range indices, exactly the
boolean "some critical index has a non-Demonstrated result". -/
lemma criticalVeto_eq (results : List String) (C : List Nat)
    (hC : ∀ i ∈ C, i < results.length) :
    criticalVeto results C =
      .ok (C.any (fun i => !(results[i]? == some "Demonstrated"))) := by
  induction C with
  | nil => simp [criticalVeto]
  | cons idx rest ih =>
    have hidx : idx < results.length := hC idx (List.mem_cons_self idx rest)
    cases hx : results[idx]? with
    | none =>
      exact absurd (List.getElem?_eq_none_iff.mp hx) (Nat.not_le.mpr hidx)
    | some a =>
      by_cases ha : a = "Demonstrated"
      · subst ha
        simp [criticalVeto, hx, ih (fun i hi => hC i (List.mem_cons_of_mem idx hi))]
      · simp [criticalVeto, hx, ha]

/-- `decision_from_dimension_results`, characterized: veto on any critical
index lacking a `"Demonstrated"` result, else the count threshold. -/
lemma decision_eq (rules : Rules) (results : List String) (level_path : String)
    (C : List Nat) (m : Nat)
    (hc : dictLookup rules.critical_by_path level_path = some C)
    (hm : dictLookup rules.min_demo_by_path level_path = some m)
    (hC : ∀ i ∈ C, i < results.length) :
    decision_from_dimension_results rules results level_path =
      .ok (if C.any (fun i => !(results[i]? == some "Demonstrated")) then "Reject"
           else if m ≤ (results.filter (fun r => r == "Demonstrated")).length then
             "Confirmed"
           else "Reject") := by
  simp only [decision_from_dimension_results, hc, hm, criticalVeto_eq results C hC]
  cases hb : C.any (fun i => !(results[i]? == some "Demonstrated")) <;> simp [hb]

/-- A successful decision is `"Confirmed"` or `"Reject"`. -/
lemma decision_ok_cases (rules : Rules) (results : List String)
    (level_path : String) (d : String)
    (hd : decision_from_dimension_results rules results level_path = .ok d) :
    d = "Confirmed" ∨ d = "Reject" := by
  unfold decision_from_dimension_results at hd
  cases h1 : dictLookup rules.critical_by_path level_path with
  | none => simp only [h1] at hd; exact absurd hd (by simp)
  | some C =>
    simp only [h1] at hd
    cases h2 : dictLookup rules.min_demo_by_path level_path with
    | none => simp only [h2] at hd; exact absurd hd (by simp)
    | some m =>
      simp only [h2] at hd
      cases h3 : criticalVeto results C with
      | error e => simp only [h3] at hd; exact absurd hd (by simp)
      | ok b =>
        simp only [h3] at hd
        cases b with
        | true => right; simpa using hd.symm
        | false =>
          simp only [] at hd
          split at hd
          · left; simpa using hd.symm
          · right; simpa using hd.symm

/-- The weight sum a dimension's vote list contributes: role weight for votes
rated exactly `"Demonstrated"`, zero for every other vote. -/
def demo_weight_spec (wmap : List (String × ℚ)) (votes : List (String × String)) : ℚ :=
  (votes.map (fun v =>
    if v.2 == "Demonstrated" then (dictLookup wmap v.1).getD 0 else 0)).sum

/-- When the level path parses and its target level has a weight table,
`aggregate_dimension_demo_weight` is exactly the `demo_weight_spec` sum. -/
lemma aggregate_eq_spec (level_path target : String) (wmap : List (String × ℚ))
    (h1 : level_path_to_target_level level_path = .ok target)
    (h2 : dictLookup LEVEL_WEIGHTS target = some wmap) :
    ∀ votes, aggregate_dimension_demo_weight votes level_path =
      .ok (demo_weight_spec wmap votes) := by
  intro votes
  induction votes with
  | nil => simp [aggregate_dimension_demo_weight, demo_weight_spec]
  | cons v rest ih =>
    obtain ⟨role, rating⟩ := v
    have hw : get_weight level_path role = .ok ((dictLookup wmap role).getD 0) := by
      simp [get_weight, h1, h2]
    by_cases hr : rating = "Demonstrated"
    · subst hr
      simp [aggregate_dimension_demo_weight, hw, ih, demo_weight_spec]
    · simp [aggregate_dimension_demo_weight, hr, ih, demo_weight_spec]

/-- The `range(8)` loop of `committee_aggregate`, characterized entrywise when
the weight table resolves and the dimension names are long enough. -/
lemma agg_dims_eq (rules : Rules) (level_path target : String)
    (wmap : List (String × ℚ)) (assignments : List Assignment)
    (responses : List ResponseRow)
    (h1 : level_path_to_target_level level_path = .ok target)
    (h2 : dictLookup LEVEL_WEIGHTS target = some wmap) :
    ∀ L : List Nat, (∀ i ∈ L, i < rules.dimensions.length) →
      agg_dims rules level_path assignments responses L =
        .ok (L.map (fun i =>
          { dimension := rules.dimensions.getD i "",
            demo_weight := demo_weight_spec wmap (per_dim_votes assignments responses i),
            result := dimension_result_from_demo_weight
              (demo_weight_spec wmap (per_dim_votes assignments responses i)) })) := by
  intro L
  induction L with
  | nil => intro _; simp [agg_dims]
  | cons i rest ih =>
    intro hL
    have hi : i < rules.dimensions.length := hL i (List.mem_cons_self i rest)
    cases hx : rules.dimensions[i]? with
    | none => exact absurd (List.getElem?_eq_none_iff.mp hx) (Nat.not_le.mpr hi)
    | some dname =>
      have hgd : rules.dimensions.getD i "" = dname := by
        simp [List.getD_eq_getElem?_getD, hx]
      simp only [agg_dims,
        aggregate_eq_spec level_path target wmap h1 h2
          (per_dim_votes assignments responses i),
        hx, ih (fun j hj => hL j (List.mem_cons_of_mem i hj)), hgd, List.map_cons]

/-! ## Claim C1: the committee decision rule -/

/-- C1: for an 8-entry result list and a level path whose rules give critical
index set `C` (indices within 0..7) and minimum-demonstrated threshold `m`,
`decision_from_dimension_results` returns `"Reject"` as soon as any index of
`C` holds a result other than `"Demonstrated"`, regardless of the other
dimensions; otherwise it returns `"Confirmed"` exactly when the number of
`"Demonstrated"` results is at least `m`, and `"Reject"` otherwise. -/
theorem decision_rule_veto_then_threshold (rules : Rules) (level_path : String)
    (results : List String) (C : List Nat) (m : Nat)
    (hc : dictLookup rules.critical_by_path level_path = some C)
    (hm : dictLookup rules.min_demo_by_path level_path = some m)
    (hlen : results.length = 8)
    (hC : ∀ i ∈ C, i < 8) :
    ((∃ i ∈ C, results[i]? ≠ some "Demonstrated") →
        decision_from_dimension_results rules results level_path = .ok "Reject") ∧
    ((∀ i ∈ C, results[i]? = some "Demonstrated") →
        decision_from_dimension_results rules results level_path =
          .ok (if m ≤ (results.filter (fun r => r == "Demonstrated")).length then
                 "Confirmed"
               else "Reject")) := by
  have hd := decision_eq rules results level_path C m hc hm
    (fun i hi => by rw [hlen]; exact hC i hi)
  constructor
  · rintro ⟨i, hi, hne⟩
    have hany : (C.any (fun i => !(results[i]? == some "Demonstrated"))) = true :=
      List.any_eq_true.mpr ⟨i, hi, by simpa using hne⟩
    rw [hd, hany]
    simp
  · intro hall
    have hany : (C.any (fun i => !(results[i]? == some "Demonstrated"))) = false := by
      apply List.any_eq_false.mpr
      intro i hi
      simp [hall i hi]
    rw [hd, hany]
    simp

/-- Rules value used by concrete witnesses: one level path with critical set
`[0]` and minimum-demonstrated threshold 1. -/
def rulesW : Rules :=
  { dimensions := ["d1", "d2", "d3", "d4", "d5", "d6", "d7", "d8"],
    level_paths := ["L → P1"],
    min_demo_by_path := [("L → P1", 1)],
    critical_by_path := [("L → P1", [0])] }

/-- Witness for C1 at a concrete input: all eight results `"Demonstrated"`,
critical set `[0]`, threshold 1, giving `"Confirmed"`. -/
theorem decision_rule_veto_then_threshold_witness :
    decision_from_dimension_results rulesW (List.replicate 8 "Demonstrated")
      "L → P1" = .ok "Confirmed" := by
  have h := (decision_rule_veto_then_threshold rulesW "L → P1"
    (List.replicate 8 "Demonstrated") [0] 1 (by decide) (by decide) (by decide)
    (by decide)).2 (by decide)
  exact h.trans (by decide)

/-! ## Claim C2: the tri-state thresholds -/

/-- C2: the tri-state mapping of a summed demonstrated weight: `"Demonstrated"`
exactly when `0.70 ≤ w` (the upper threshold is inclusive), `"Partially
Demonstrated"` exactly when `0.40 ≤ w < 0.70`, `"Not Demonstrated"` exactly
when `w < 0.40`; in particular `w = 0.70` and `w = 0.40` land on the inclusive
sides, and the two cutoffs are the fixed constants `THRESHOLD_DEMO = 0.70`
and `THRESHOLD_PARTIAL = 0.40`, independent of any level. -/
theorem dimension_result_tri_state (w : ℚ) :
    (dimension_result_from_demo_weight w = "Demonstrated" ↔ (0.70 : ℚ) ≤ w) ∧
    (dimension_result_from_demo_weight w = "Partially Demonstrated" ↔
      (0.40 : ℚ) ≤ w ∧ w < (0.70 : ℚ)) ∧
    (dimension_result_from_demo_weight w = "Not Demonstrated" ↔ w < (0.40 : ℚ)) ∧
    dimension_result_from_demo_weight (0.70 : ℚ) = "Demonstrated" ∧
    dimension_result_from_demo_weight (0.40 : ℚ) = "Partially Demonstrated" ∧
    THRESHOLD_DEMO = (0.70 : ℚ) ∧ THRESHOLD_PARTIAL = (0.40 : ℚ) := by
  have ht : THRESHOLD_DEMO = (0.70 : ℚ) := by
    rw [THRESHOLD_DEMO, Rat.mkRat_eq_div]; norm_num
  have hp : THRESHOLD_PARTIAL = (0.40 : ℚ) := by
    rw [THRESHOLD_PARTIAL, Rat.mkRat_eq_div]; norm_num
  have c070 : dimension_result_from_demo_weight (0.70 : ℚ) = "Demonstrated" := by
    rw [dimension_result_from_demo_weight, ht]
    rw [if_pos (by norm_num)]
  have c040 : dimension_result_from_demo_weight (0.40 : ℚ) =
      "Partially Demonstrated" := by
    rw [dimension_result_from_demo_weight, ht, hp]
    rw [if_neg (by norm_num), if_pos (by norm_num)]
  have hD : dimension_result_from_demo_weight w = "Demonstrated" ↔
      (0.70 : ℚ) ≤ w := by
    rw [dimension_result_from_demo_weight, ht, hp]
    split_ifs with h1 h2
    · simp [h1]
    · constructor
      · intro h; exact absurd h (by decide)
      · intro h; exact absurd h h1
    · constructor
      · intro h; exact absurd h (by decide)
      · intro h; exact absurd h h1
  have hP : dimension_result_from_demo_weight w = "Partially Demonstrated" ↔
      (0.40 : ℚ) ≤ w ∧ w < (0.70 : ℚ) := by
    rw [dimension_result_from_demo_weight, ht, hp]
    split_ifs with h1 h2
    · constructor
      · intro h; exact absurd h (by decide)
      · rintro ⟨-, hlt⟩; exact absurd h1 (not_le.mpr hlt)
    · exact ⟨fun _ => ⟨h2, not_le.mp h1⟩, fun _ => rfl⟩
    · constructor
      · intro h; exact absurd h (by decide)
      · rintro ⟨hge, -⟩; exact absurd hge h2
  have hN : dimension_result_from_demo_weight w = "Not Demonstrated" ↔
      w < (0.40 : ℚ) := by
    rw [dimension_result_from_demo_weight, ht, hp]
    split_ifs with h1 h2
    · constructor
      · intro h; exact absurd h (by decide)
      · intro hlt; exact absurd h1 (not_le.mpr (by linarith))
    · constructor
      · intro h; exact absurd h (by decide)
      · intro hlt; exact absurd h2 (not_le.mpr hlt)
    · exact ⟨fun _ => not_le.mp h2, fun _ => rfl⟩
  exact ⟨hD, hP, hN, c070, c040, ht, hp⟩

/-! ## Claim C3: partial votes always yield Pending -/

/-- C3: when the assigned-evaluator set of an evaluation is non-empty and
differs from the set of evaluators whose Vote is on record,
`committee_aggregate` returns exactly the Pending result with the
missing/responded/assigned counts and an empty per-dimension list — in
particular it never returns `"Confirmed"` or `"Reject"` in this situation. -/
theorem committee_pending_on_partial_votes (rules : Rules) (db : DB)
    (eval_id : Nat) (ev : Evaluation)
    (hev : get_evaluation db eval_id = some ev)
    (hA : (assigned_ids (list_assignments_for_evaluation db eval_id)).Nonempty)
    (hne : responded_ids (list_responses_for_evaluation db eval_id) ≠
      assigned_ids (list_assignments_for_evaluation db eval_id)) :
    committee_aggregate rules db eval_id = .ok
      { per_dim := [], committee_decision := "Pending",
        missing_count := (assigned_ids (list_assignments_for_evaluation db eval_id) \
          responded_ids (list_responses_for_evaluation db eval_id)).card,
        responded_count :=
          (responded_ids (list_responses_for_evaluation db eval_id)).card,
        assigned_count :=
          (assigned_ids (list_assignments_for_evaluation db eval_id)).card } := by
  simp only [committee_aggregate, hev, committee_aggregate_lists]
  rw [if_pos ⟨hA, hne⟩]

/-- Store with one assigned evaluator and no votes on evaluation 1. -/
def dbPending : DB :=
  { users := [{ id := 1, role := "EVALUATOR" }],
    evaluations := [{ id := 1, level_path := "L → P1",
                      target_level := "Principal", status := "OPEN" }],
    assignments := [{ evaluation_id := 1, user_id := 1,
                      evaluator_role := "Line Manager" }],
    responses := [],
    approver_responses := [],
    decisions := [{ evaluation_id := 1, committee_decision := some "Pending",
                    final_decision := some "Pending", decided_by := Option.none,
                    decided_at := Option.none }] }

/-- Witness for C3: one assigned evaluator, no votes, result Pending with
counts 1 missing / 0 responded / 1 assigned. -/
theorem committee_pending_on_partial_votes_witness :
    committee_aggregate rulesW dbPending 1 = .ok
      { per_dim := [], committee_decision := "Pending", missing_count := 1,
        responded_count := 0, assigned_count := 1 } := by
  have h := committee_pending_on_partial_votes rulesW dbPending 1
    { id := 1, level_path := "L → P1", target_level := "Principal",
      status := "OPEN" }
    (by decide) (by decide) (by decide)
  exact h.trans (by decide)

/-! ## Claim C4: gated levels and the committee decision -/

/-- Counterexample to C4 as stated: an evaluation targeting Principal with one
assigned evaluator and no votes gets committee decision `"Pending"`, not
`"RecommendationOnly"` — so the committee decision for the two most senior
levels is not always `"RecommendationOnly"`. -/
theorem committee_gated_pending_counterexample :
    (get_evaluation dbPending 1).map (fun e => e.target_level) = some "Principal" ∧
    (committee_aggregate rulesW dbPending 1).map (fun r => r.committee_decision) =
      .ok "Pending" ∧
    ("Pending" : String) ≠ "RecommendationOnly" := by
  decide

/-- C4 as amended: for an evaluation whose target level is Principal or
Distinguished, every successful committee aggregation yields `"Pending"` or
`"RecommendationOnly"` — never a binding `"Confirmed"` or `"Reject"` — and it
yields `"RecommendationOnly"` whenever the pending gate does not fire (per-
dimension results computed). -/
theorem committee_gated_never_binding (rules : Rules) (db : DB) (eval_id : Nat)
    (ev : Evaluation) (r : AggResult)
    (hev : get_evaluation db eval_id = some ev)
    (hg : ev.target_level = "Principal" ∨ ev.target_level = "Distinguished")
    (hr : committee_aggregate rules db eval_id = .ok r) :
    (r.committee_decision = "Pending" ∨
      r.committee_decision = "RecommendationOnly") ∧
    (¬ ((assigned_ids (list_assignments_for_evaluation db eval_id)).Nonempty ∧
        responded_ids (list_responses_for_evaluation db eval_id) ≠
          assigned_ids (list_assignments_for_evaluation db eval_id)) →
      r.committee_decision = "RecommendationOnly") := by
  simp only [committee_aggregate, hev, committee_aggregate_lists] at hr
  by_cases hp : (assigned_ids (list_assignments_for_evaluation db eval_id)).Nonempty ∧
      responded_ids (list_responses_for_evaluation db eval_id) ≠
        assigned_ids (list_assignments_for_evaluation db eval_id)
  · rw [if_pos hp] at hr
    have heq := Except.ok.inj hr
    exact ⟨Or.inl (by rw [← heq]), fun hn => absurd hp hn⟩
  · rw [if_neg hp] at hr
    cases hagg : agg_dims rules ev.level_path
        (list_assignments_for_evaluation db eval_id)
        (list_responses_for_evaluation db eval_id) (List.range 8) with
    | error e => simp only [hagg] at hr; exact absurd hr (by simp)
    | ok pd =>
      simp only [hagg] at hr
      rw [if_pos hg] at hr
      have heq := Except.ok.inj hr
      exact ⟨Or.inr (by rw [← heq]), fun _ => by rw [← heq]⟩

/-- Store with a Principal-level evaluation and no assignments or votes. -/
def dbGated : DB := { dbPending with assignments := [] }

/-- The aggregation result on `dbGated`. -/
def aggGatedW : AggResult :=
  { per_dim := (List.range 8).map (fun i =>
      { dimension := rulesW.dimensions.getD i "", demo_weight := 0,
        result := "Not Demonstrated" }),
    committee_decision := "RecommendationOnly",
    missing_count := 0, responded_count := 0, assigned_count := 0 }

/-- Witness for the amended C4: on a Principal-level evaluation whose pending
gate does not fire, the committee decision is `"RecommendationOnly"`. -/
theorem committee_gated_never_binding_witness :
    aggGatedW.committee_decision = "RecommendationOnly" ∧
    committee_aggregate rulesW dbGated 1 = .ok aggGatedW := by
  have h := committee_gated_never_binding rulesW dbGated 1
    { id := 1, level_path := "L → P1", target_level := "Principal",
      status := "OPEN" } aggGatedW (by decide) (by decide) (by decide)
  exact ⟨h.2 (by decide), by decide⟩

/-! ## Claim C10: no assignments at all -/

/-- With no assignment rows for the evaluation, the assignment query is
empty. -/
lemma list_assignments_nil (db : DB) (eval_id : Nat)
    (h : ∀ a ∈ db.assignments, a.evaluation_id ≠ eval_id) :
    list_assignments_for_evaluation db eval_id = [] := by
  apply List.filter_eq_nil.mpr
  intro a ha
  simp [h a ha]

/-- With no assignment rows for the evaluation, the response query (which
joins on assignments) is empty as well. -/
lemma list_responses_nil (db : DB) (eval_id : Nat)
    (h : ∀ a ∈ db.assignments, a.evaluation_id ≠ eval_id) :
    list_responses_for_evaluation db eval_id = [] := by
  apply List.filter_eq_nil.mpr
  intro r hr
  simp only [Bool.and_eq_true, beq_iff_eq, List.any_eq_true, not_and]
  rintro ⟨heq, -⟩ ⟨a, ha, haeq, -⟩
  exact absurd (haeq.trans heq) (h a ha)

/-- Zero demonstrated weight maps to `"Not Demonstrated"`. -/
lemma dimension_result_zero :
    dimension_result_from_demo_weight 0 = "Not Demonstrated" := by decide

/-- The aggregation loop over no assignments and no responses: every dimension
gets weight 0 and result `"Not Demonstrated"`. -/
lemma agg_dims_nil_responses (rules : Rules) (level_path : String) :
    ∀ L : List Nat, (∀ i ∈ L, i < rules.dimensions.length) →
      agg_dims rules level_path [] [] L =
        .ok (L.map (fun i =>
          { dimension := rules.dimensions.getD i "", demo_weight := 0,
            result := "Not Demonstrated" })) := by
  intro L
  induction L with
  | nil => intro _; simp [agg_dims]
  | cons i rest ih =>
    intro hL
    have hi : i < rules.dimensions.length := hL i (List.mem_cons_self i rest)
    have hv : per_dim_votes [] [] i = [] := by simp [per_dim_votes]
    cases hx : rules.dimensions[i]? with
    | none => exact absurd (List.getElem?_eq_none_iff.mp hx) (Nat.not_le.mpr hi)
    | some dname =>
      have hgd : rules.dimensions.getD i "" = dname := by
        simp [List.getD_eq_getElem?_getD, hx]
      simp only [agg_dims, hv, aggregate_dimension_demo_weight, hx,
        ih (fun j hj => hL j (List.mem_cons_of_mem i hj)), hgd,
        dimension_result_zero, List.map_cons]

/-- C10: an evaluation with no Assignments at all does not pend: the
aggregation computes all 8 dimension results from zero demonstrated weight,
so each is `"Not Demonstrated"`, and for a non-gated target level the
committee decision is `"Confirmed"` exactly when the level's critical set is
empty and its minimum-demonstrated threshold is 0, and `"Reject"` otherwise
(non-empty critical set or positive threshold). -/
theorem committee_no_assignments_decides (rules : Rules) (db : DB)
    (eval_id : Nat) (ev : Evaluation) (C : List Nat) (m : Nat)
    (hev : get_evaluation db eval_id = some ev)
    (hnoa : ∀ a ∈ db.assignments, a.evaluation_id ≠ eval_id)
    (hng : ¬ (ev.target_level = "Principal" ∨ ev.target_level = "Distinguished"))
    (hc : dictLookup rules.critical_by_path ev.level_path = some C)
    (hm : dictLookup rules.min_demo_by_path ev.level_path = some m)
    (hdim : rules.dimensions.length = 8)
    (hC : ∀ i ∈ C, i < 8) :
    committee_aggregate rules db eval_id = .ok
      { per_dim := (List.range 8).map (fun i =>
          { dimension := rules.dimensions.getD i "", demo_weight := 0,
            result := "Not Demonstrated" }),
        committee_decision := if C = [] ∧ m = 0 then "Confirmed" else "Reject",
        missing_count := 0, responded_count := 0, assigned_count := 0 } := by
  have hassign := list_assignments_nil db eval_id hnoa
  have hresp := list_responses_nil db eval_id hnoa
  have hbound : ∀ i ∈ List.range 8, i < rules.dimensions.length := by
    intro i hi; rw [hdim]; exact List.mem_range.mp hi
  have hnp : ¬ ((assigned_ids ([] : List Assignment)).Nonempty ∧
      responded_ids ([] : List ResponseRow) ≠ assigned_ids ([] : List Assignment)) := by
    simp [assigned_ids]
  set results := (List.range 8).map
    (fun _ : Nat => "Not Demonstrated") with hresults
  have hres8 : ∀ i, i < 8 → results[i]? = some "Not Demonstrated" := by
    intro i hi
    rw [hresults, List.getElem?_map, List.getElem?_range hi]
    rfl
  have hlen : results.length = 8 := by
    rw [hresults, List.length_map, List.length_range]
  have hcount : (results.filter (fun r => r == "Demonstrated")).length = 0 := by
    apply List.length_eq_zero.mpr
    apply List.filter_eq_nil.mpr
    intro a ha
    rw [hresults] at ha
    obtain ⟨b, -, rfl⟩ := List.mem_map.mp ha
    decide
  have hmapres : (List.map (fun p => p.result) ((List.range 8).map (fun i =>
      ({ dimension := rules.dimensions.getD i "", demo_weight := 0,
         result := "Not Demonstrated" } : PerDimOut)))) = results := by
    rw [hresults, List.map_map]
    apply List.map_congr_left
    intro a _
    rfl
  have hdec := decision_eq rules results ev.level_path C m hc hm
    (fun i hi => by rw [hlen]; exact hC i hi)
  simp only [committee_aggregate, hev, committee_aggregate_lists, hassign,
    hresp, if_neg hnp, agg_dims_nil_responses rules ev.level_path
      (List.range 8) hbound, if_neg hng, hmapres, hdec]
  by_cases hCnil : C = []
  · subst hCnil
    simp only [List.any_nil, Bool.false_eq_true, if_false, if_true, true_and]
    by_cases hm0 : m = 0
    · subst hm0; simp
    · rw [if_neg (by omega), if_neg (by simp [hm0])]
      rfl
  · have hany : (C.any (fun i => !(results[i]? == some "Demonstrated"))) = true := by
      obtain ⟨i, hi⟩ := List.exists_mem_of_ne_nil C hCnil
      exact List.any_eq_true.mpr ⟨i, hi, by simp [hres8 i (hC i hi)]⟩
    rw [hany]
    simp [hCnil]

/-- A non-gated evaluation row. -/
def evNoAssign : Evaluation :=
  { id := 1, level_path := "L → P1", target_level := "Senior Specialist",
    status := "OPEN" }

/-- Store with a non-gated evaluation and no assignments. -/
def dbNoAssign : DB :=
  { dbPending with
    assignments := ([] : List Assignment),
    evaluations := [evNoAssign] }

/-- Witness for C10: no assignments, critical set `[0]`, threshold 1 — the
aggregation does not pend and rejects. -/
theorem committee_no_assignments_decides_witness :
    committee_aggregate rulesW dbNoAssign 1 = .ok
      { per_dim := (List.range 8).map (fun i =>
          { dimension := rulesW.dimensions.getD i "", demo_weight := 0,
            result := "Not Demonstrated" }),
        committee_decision := "Reject",
        missing_count := 0, responded_count := 0, assigned_count := 0 } := by
  have h := committee_no_assignments_decides rulesW dbNoAssign 1 evNoAssign
    [0] 1 (by decide) (by decide) (by decide) (by decide)
    (by decide) (by decide) (by decide)
  exact h.trans (by decide)

/-! ## Claim C5: per-dimension demonstrated weight -/

/-- The claim's sum, written over the stored rows: each Vote whose rating at
index `i` is exactly `"Demonstrated"` contributes the weight of the role of
the voter's Assignment; every other Vote contributes zero. -/
def dim_weight_formula (wmap : List (String × ℚ)) (assignments : List Assignment)
    (responses : List ResponseRow) (i : Nat) : ℚ :=
  (responses.map (fun r =>
    if r.dims.getD i "" == "Demonstrated" then
      (dictLookup wmap
        ((dictLookup (role_by_user assignments) r.user_id).getD "")).getD 0
    else 0)).sum

/-- The engine's per-dimension vote list realizes exactly that sum. -/
lemma demo_weight_spec_votes (wmap : List (String × ℚ))
    (assignments : List Assignment) (responses : List ResponseRow) (i : Nat) :
    demo_weight_spec wmap (per_dim_votes assignments responses i) =
      dim_weight_formula wmap assignments responses i := by
  unfold demo_weight_spec per_dim_votes dim_weight_formula
  rw [List.map_map]
  rfl

/-- Relabel every user account's role, leaving ids and all other tables
unchanged. -/
def with_user_roles (db : DB) (f : Nat → String) : DB :=
  { db with users := db.users.map (fun u => { u with role := f u.id }) }

/-- Account-role relabelling does not change the assignments query. -/
lemma list_assignments_with_user_roles (db : DB) (f : Nat → String) (eval_id : Nat) :
    list_assignments_for_evaluation (with_user_roles db f) eval_id =
      list_assignments_for_evaluation db eval_id := by
  unfold list_assignments_for_evaluation with_user_roles
  simp only [List.any_map]
  rfl

/-- Account-role relabelling does not change the responses query. -/
lemma list_responses_with_user_roles (db : DB) (f : Nat → String) (eval_id : Nat) :
    list_responses_for_evaluation (with_user_roles db f) eval_id =
      list_responses_for_evaluation db eval_id := by
  unfold list_responses_for_evaluation with_user_roles
  simp only [List.any_map]
  rfl

/-- On a successful aggregation whose pending gate does not fire, the
reported `per_dim` list is the output of the aggregation loop. -/
lemma committee_ok_per_dim (rules : Rules) (ev : Evaluation)
    (assignments : List Assignment) (responses : List ResponseRow)
    (r : AggResult) (pd : List PerDimOut)
    (hgate : ¬ ((assigned_ids assignments).Nonempty ∧
      responded_ids responses ≠ assigned_ids assignments))
    (hagg : agg_dims rules ev.level_path assignments responses (List.range 8) =
      .ok pd)
    (hr : committee_aggregate_lists rules ev assignments responses = .ok r) :
    r.per_dim = pd := by
  unfold committee_aggregate_lists at hr
  rw [if_neg hgate] at hr
  simp only [hagg] at hr
  by_cases hg : ev.target_level = "Principal" ∨ ev.target_level = "Distinguished"
  · rw [if_pos hg] at hr
    rw [← Except.ok.inj hr]
  · rw [if_neg hg] at hr
    cases hd : decision_from_dimension_results rules
        (List.map (fun p => p.result) pd) ev.level_path with
    | error e => simp only [hd] at hr; exact absurd hr (by simp)
    | ok d => simp only [hd] at hr; rw [← Except.ok.inj hr]

/-- C5: with the target level's weight table resolved and the pending gate not
firing, the committee aggregation loop produces, for each of the 8 dimension
indices independently, the demonstrated weight
`dim_weight_formula` — the sum over exactly the votes rated `"Demonstrated"`
at that index of the weight of the voter's Assignment role under the target
level, other ratings contributing zero — and this is the per-dimension weight
`committee_aggregate` reports; moreover the whole aggregation is invariant
under relabelling every user account's role, so the lookup cannot depend on
account roles. -/
theorem committee_per_dim_weight_formula (rules : Rules) (db : DB)
    (eval_id : Nat) (ev : Evaluation) (target : String)
    (wmap : List (String × ℚ))
    (hev : get_evaluation db eval_id = some ev)
    (h1 : level_path_to_target_level ev.level_path = .ok target)
    (h2 : dictLookup LEVEL_WEIGHTS target = some wmap)
    (hdim : rules.dimensions.length = 8)
    (hgate : ¬ ((assigned_ids (list_assignments_for_evaluation db eval_id)).Nonempty ∧
        responded_ids (list_responses_for_evaluation db eval_id) ≠
          assigned_ids (list_assignments_for_evaluation db eval_id))) :
    (∃ pd : List PerDimOut,
      agg_dims rules ev.level_path (list_assignments_for_evaluation db eval_id)
        (list_responses_for_evaluation db eval_id) (List.range 8) = .ok pd ∧
      (∀ r : AggResult, committee_aggregate rules db eval_id = .ok r →
        r.per_dim = pd) ∧
      pd.length = 8 ∧
      (∀ i, i < 8 → pd[i]? = some
        { dimension := rules.dimensions.getD i "",
          demo_weight := dim_weight_formula wmap
            (list_assignments_for_evaluation db eval_id)
            (list_responses_for_evaluation db eval_id) i,
          result := dimension_result_from_demo_weight (dim_weight_formula wmap
            (list_assignments_for_evaluation db eval_id)
            (list_responses_for_evaluation db eval_id) i) })) ∧
    (∀ f : Nat → String,
      committee_aggregate rules (with_user_roles db f) eval_id =
        committee_aggregate rules db eval_id) := by
  have hbound : ∀ i ∈ List.range 8, i < rules.dimensions.length := by
    intro i hi; rw [hdim]; exact List.mem_range.mp hi
  have hagg := agg_dims_eq rules ev.level_path target wmap
    (list_assignments_for_evaluation db eval_id)
    (list_responses_for_evaluation db eval_id) h1 h2 (List.range 8) hbound
  constructor
  · refine ⟨_, hagg, ?_, ?_, ?_⟩
    · intro r hr
      have hr' : committee_aggregate_lists rules ev
          (list_assignments_for_evaluation db eval_id)
          (list_responses_for_evaluation db eval_id) = .ok r := by
        simpa only [committee_aggregate, hev] using hr
      exact committee_ok_per_dim rules ev _ _ r _ hgate hagg hr'
    · simp
    · intro i hi
      simp only [List.getElem?_map, List.getElem?_range hi, Option.map_some',
        demo_weight_spec_votes]
  · intro f
    unfold committee_aggregate
    rw [show get_evaluation (with_user_roles db f) eval_id =
          get_evaluation db eval_id from rfl,
        list_assignments_with_user_roles, list_responses_with_user_roles]

/-- A level path whose target level is Senior Specialist. -/
def evSS : Evaluation :=
  { id := 1, level_path := "L → Senior Specialist",
    target_level := "Senior Specialist", status := "OPEN" }

/-- Rules for the Senior Specialist witness path: empty critical set,
threshold 0. -/
def rulesSS : Rules :=
  { dimensions := ["d1", "d2", "d3", "d4", "d5", "d6", "d7", "d8"],
    level_paths := ["L → Senior Specialist"],
    min_demo_by_path := [("L → Senior Specialist", 0)],
    critical_by_path := [("L → Senior Specialist", [])] }

/-- Store with the Senior Specialist evaluation and no assignments. -/
def dbWeights : DB :=
  { users := [{ id := 1, role := "EVALUATOR" }],
    evaluations := [evSS],
    assignments := [],
    responses := [],
    approver_responses := [],
    decisions := [] }

/-- The Senior Specialist weight table. -/
def wmapSS : List (String × ℚ) :=
  [("Line Manager", mkRat 10 100), ("Second Line Manager", mkRat 35 100),
   ("OPD", mkRat 15 100), ("HRBP", mkRat 20 100),
   ("External Stakeholder", mkRat 20 100)]

/-- Witness for C5 at a concrete store: the aggregation loop succeeds with 8
entries and account-role relabelling leaves the aggregation unchanged. -/
theorem committee_per_dim_weight_formula_witness :
    committee_aggregate rulesSS (with_user_roles dbWeights (fun _ => "ADMIN")) 1 =
      committee_aggregate rulesSS dbWeights 1 ∧
    ∃ pd : List PerDimOut,
      agg_dims rulesSS "L → Senior Specialist"
        (list_assignments_for_evaluation dbWeights 1)
        (list_responses_for_evaluation dbWeights 1) (List.range 8) = .ok pd ∧
      pd.length = 8 := by
  have h := committee_per_dim_weight_formula rulesSS dbWeights 1 evSS
    "Senior Specialist" wmapSS (by decide) (by decide) (by decide) (by decide)
    (by decide)
  obtain ⟨⟨pd, hpd, -, hlen, -⟩, hinv⟩ := h
  exact ⟨hinv _, ⟨pd, hpd, hlen⟩⟩

/-! ## Claim C9: the approver's final decision -/

/-- The approver per-dimension breakdown loop, characterized for in-range
index lists. -/
lemma final_per_dim_eq (rules : Rules) (dims : List String) :
    ∀ L : List Nat, (∀ i ∈ L, i < rules.dimensions.length) →
      final_per_dim rules dims L = .ok (L.map (fun i =>
        { dimension := rules.dimensions.getD i "", result := dims.getD i "" })) := by
  intro L
  induction L with
  | nil => intro _; simp [final_per_dim]
  | cons i rest ih =>
    intro hL
    have hi : i < rules.dimensions.length := hL i (List.mem_cons_self i rest)
    cases hx : rules.dimensions[i]? with
    | none => exact absurd (List.getElem?_eq_none_iff.mp hx) (Nat.not_le.mpr hi)
    | some dname =>
      have hgd : rules.dimensions.getD i "" = dname := by
        simp [List.getD_eq_getElem?_getD, hx]
      simp only [final_per_dim, hx,
        ih (fun j hj => hL j (List.mem_cons_of_mem i hj)), hgd, List.map_cons]

/-- C9: with no ApproverVote on record, `approver_final_decision` returns
`"Pending"` with an empty per-dimension list; with an ApproverVote on record
it returns exactly the value of the shared committee decision rule
(`decision_from_dimension_results`) applied directly to the approver's 8
literal ratings — no weighting — which is always `"Confirmed"` or
`"Reject"`, together with the 8-entry per-dimension breakdown of those
ratings. -/
theorem approver_final_decision_spec (rules : Rules) (db : DB) (eval_id : Nat)
    (ev : Evaluation)
    (hev : get_evaluation db eval_id = some ev) :
    (get_approver_response db eval_id = Option.none →
      approver_final_decision rules db eval_id =
        .ok { final_decision := "Pending", per_dim := [] }) ∧
    (∀ appr : ApproverRow, get_approver_response db eval_id = some appr →
      rules.dimensions.length = 8 →
      ∀ d : String,
        decision_from_dimension_results rules (approver_dims appr)
          ev.level_path = .ok d →
        approver_final_decision rules db eval_id = .ok
          { final_decision := d,
            per_dim := (List.range 8).map (fun i =>
              { dimension := rules.dimensions.getD i "",
                result := (approver_dims appr).getD i "" }) } ∧
        (d = "Confirmed" ∨ d = "Reject")) := by
  constructor
  · intro hnone
    simp only [approver_final_decision, hev, hnone]
  · intro appr happr hdim d hd
    have hbound : ∀ i ∈ List.range 8, i < rules.dimensions.length := by
      intro i hi; rw [hdim]; exact List.mem_range.mp hi
    constructor
    · simp only [approver_final_decision, hev, happr, hd,
        final_per_dim_eq rules (approver_dims appr) (List.range 8) hbound]
    · exact decision_ok_cases rules (approver_dims appr) ev.level_path d hd

/-- The Principal-level evaluation row awaiting the approver. -/
def evReady : Evaluation :=
  { id := 1, level_path := "L → P1", target_level := "Principal",
    status := "READY_FOR_APPROVER" }

/-- An approver's response row: all eight ratings `"Demonstrated"`. -/
def apprRow : ApproverRow :=
  { evaluation_id := 1, approver_user_id := 9, submitted_at := "t",
    dims := List.replicate 8 "Demonstrated", comment := Option.none }

/-- Store with the approver's response on record. -/
def dbApprover : DB :=
  { users := [{ id := 9, role := "APPROVER" }],
    evaluations := [evReady],
    assignments := [],
    responses := [],
    approver_responses := [apprRow],
    decisions := [] }

/-- Witness for C9: the approver's all-Demonstrated ratings yield the shared
decision rule's `"Confirmed"` plus an 8-entry breakdown. -/
theorem approver_final_decision_spec_witness :
    approver_final_decision rulesW dbApprover 1 = .ok
      { final_decision := "Confirmed",
        per_dim := (List.range 8).map (fun i =>
          { dimension := rulesW.dimensions.getD i "",
            result := (approver_dims apprRow).getD i "" }) } ∧
    (("Confirmed" : String) = "Confirmed" ∨ ("Confirmed" : String) = "Reject") := by
  exact (approver_final_decision_spec rulesW dbApprover 1 evReady (by decide)).2
    apprRow (by decide) (by decide) "Confirmed" (by decide)

/-! ## Claim C8: Vote upsert overwrites, never duplicates -/

/-- The stored response rows of one (evaluation, evaluator) pair. -/
def pair_rows (db : DB) (eval_id user_id : Nat) : List ResponseRow :=
  db.responses.filter (fun r => r.evaluation_id == eval_id && r.user_id == user_id)

/-- One upsert leaves exactly one row for the pair — the row just written —
provided the store satisfies the table's uniqueness constraint (at most one
row per pair). -/
lemma pair_rows_upsert (db : DB) (eval_id user_id : Nat) (dims : List String)
    (comment : Option String) (now : String)
    (h : (pair_rows db eval_id user_id).length ≤ 1) :
    pair_rows (upsert_response db eval_id user_id dims comment now)
      eval_id user_id =
      [{ evaluation_id := eval_id, user_id := user_id, submitted_at := now,
         dims := dims, comment := comment }] := by
  unfold pair_rows at h ⊢
  unfold upsert_response
  by_cases hex : db.responses.any
      (fun r => r.evaluation_id == eval_id && r.user_id == user_id)
  · rw [if_pos hex]
    have key : ∀ l : List ResponseRow,
        (l.map (fun r =>
          if r.evaluation_id == eval_id && r.user_id == user_id then
            { r with submitted_at := now, dims := dims, comment := comment }
          else r)).filter
          (fun r => r.evaluation_id == eval_id && r.user_id == user_id) =
        (l.filter (fun r => r.evaluation_id == eval_id && r.user_id == user_id)).map
          (fun _ => { evaluation_id := eval_id, user_id := user_id,
                      submitted_at := now, dims := dims, comment := comment }) := by
      intro l
      induction l with
      | nil => rfl
      | cons r rest ih =>
        by_cases hp : (r.evaluation_id == eval_id && r.user_id == user_id) = true
        · obtain ⟨he, hu⟩ := Bool.and_eq_true_iff.mp hp
          have he' := beq_iff_eq.mp he
          have hu' := beq_iff_eq.mp hu
          simp only [List.map_cons, List.filter_cons, hp, if_pos hp]
          simp only [he', hu', beq_self_eq_true, Bool.and_self, if_true, ih,
            List.map_cons]
        · simp only [List.map_cons, List.filter_cons, if_neg hp,
            Bool.not_eq_true] at *
          simp only [hp, ih]
    rw [key db.responses]
    have hne : db.responses.filter
        (fun r => r.evaluation_id == eval_id && r.user_id == user_id) ≠ [] := by
      intro hnil
      obtain ⟨x, hx, hpx⟩ := List.any_eq_true.mp hex
      exact absurd (List.filter_eq_nil.mp hnil x hx) (by simp [hpx])
    have hone : (db.responses.filter
        (fun r => r.evaluation_id == eval_id && r.user_id == user_id)).length = 1 := by
      have hpos := List.length_pos.mpr hne
      omega
    obtain ⟨x, hx⟩ := List.length_eq_one.mp hone
    rw [hx]
    rfl
  · rw [if_neg hex]
    rw [List.filter_append]
    rw [List.filter_eq_nil.mpr (fun r hr => by
      have := List.any_eq_false.mp (Bool.of_not_eq_true hex) r hr
      simp [this])]
    simp

/-- C8: upserting a Vote for a pair and then upserting again with different
ratings leaves exactly one stored row for that pair, carrying only the
latest ratings, comment and submission time — the later submission
overwrites and never duplicates (under the table's per-pair uniqueness
constraint on the starting store). -/
theorem upsert_response_overwrites (db : DB) (eval_id user_id : Nat)
    (d1 d2 : List String) (c1 c2 : Option String) (t1 t2 : String)
    (h : (pair_rows db eval_id user_id).length ≤ 1) :
    pair_rows (upsert_response (upsert_response db eval_id user_id d1 c1 t1)
      eval_id user_id d2 c2 t2) eval_id user_id =
      [{ evaluation_id := eval_id, user_id := user_id, submitted_at := t2,
         dims := d2, comment := c2 }] := by
  have h1 := pair_rows_upsert db eval_id user_id d1 c1 t1 h
  exact pair_rows_upsert (upsert_response db eval_id user_id d1 c1 t1)
    eval_id user_id d2 c2 t2 (by rw [h1]; simp)

/-- Witness for C8: two upserts on an empty store leave one row with the
second ratings vector. -/
theorem upsert_response_overwrites_witness :
    pair_rows (upsert_response (upsert_response dbWeights 1 1
        (List.replicate 8 "Demonstrated") (some "first") "t1")
      1 1 (List.replicate 8 "Not Demonstrated") (some "second") "t2") 1 1 =
      [{ evaluation_id := 1, user_id := 1, submitted_at := "t2",
         dims := List.replicate 8 "Not Demonstrated",
         comment := some "second" }] := by
  exact upsert_response_overwrites dbWeights 1 1
    (List.replicate 8 "Demonstrated") (List.replicate 8 "Not Demonstrated")
    (some "first") (some "second") "t1" "t2" (by decide)

/-! ## Claim C6: approver submission is not atomic -/

/-- A store awaiting the approver: status `READY_FOR_APPROVER`, decision row
`"Pending"`, no ApproverVote yet. -/
def dbReady : DB :=
  { users := [{ id := 9, role := "APPROVER" }],
    evaluations := [evReady],
    assignments := [],
    responses := [],
    approver_responses := [],
    decisions := [{ evaluation_id := 1, committee_decision := some "Pending",
                    final_decision := some "Pending", decided_by := Option.none,
                    decided_at := Option.none }] }

/-- The approver's submitted ratings. -/
def dims8 : List String := List.replicate 8 "Demonstrated"

/-- C6 fails on the code: the approver submission handler commits the
ApproverVote, the final Decision, and the status change in three separate
sqlite transactions (each src/db.py helper opens and commits its own
connection), so the state right after the first commit — ApproverVote
written, status still `READY_FOR_APPROVER`, final decision still
`"Pending"` — is a reachable observable state. -/
theorem approver_submit_intermediate_state_observable :
    (get_evaluation dbReady 1).map (fun e => e.status) =
      some "READY_FOR_APPROVER" ∧
    get_approver_response dbReady 1 = Option.none ∧
    (upsert_approver_response dbReady 1 9 dims8 Option.none "t1") ∈
      approver_submit_states rulesW dbReady 1 9 dims8 Option.none "t1" ∧
    (get_approver_response
      (upsert_approver_response dbReady 1 9 dims8 Option.none "t1") 1).isSome =
      true ∧
    (get_evaluation
      (upsert_approver_response dbReady 1 9 dims8 Option.none "t1") 1).map
      (fun e => e.status) = some "READY_FOR_APPROVER" ∧
    (get_decision
      (upsert_approver_response dbReady 1 9 dims8 Option.none "t1") 1).map
      (fun d => d.final_decision) = some (some "Pending") := by
  decide

/-! ## Claim C7: malformed critical-matrix cells -/

/-- A Sheet2 whose critical-matrix cell B12 holds the malformed value `"2"`
(neither the number 1/0 nor the string `"1"`/`"0"`), with everything else
well-formed. -/
def badSheet : Sheet := fun r c =>
  if r = 11 then
    (if c = 2 then .vstr "L → P1" else if c = 3 then .vstr "L → P2"
     else if c = 4 then .vstr "L → P3" else if c = 5 then .vstr "L → P4"
     else if c = 6 then .vstr "L → P5" else .vnone)
  else if 12 ≤ r ∧ r ≤ 19 then
    (if c = 1 then .vstr ("D" ++ toString r)
     else if r = 12 ∧ c = 2 then .vstr "2"
     else if r = 13 ∧ c = 2 then .vnum 1
     else .vnum 0)
  else if 25 ≤ r ∧ r ≤ 29 then
    (if c = 1 then
      (if r = 25 then .vstr "L → P1" else if r = 26 then .vstr "L → P2"
       else if r = 27 then .vstr "L → P3" else if r = 28 then .vstr "L → P4"
       else .vstr "L → P5")
     else if c = 2 then .vstr "min 4 demonstrated" else .vnone)
  else .vnone

/-- Counterexample to C7: a critical-matrix cell holding `"2"` — a value that
is not 0 or 1 in any accepted form (`critical_cell_val` classifies it as no
value) — does not make `load_rules_from_sheet2` fail: the load succeeds. -/
theorem load_rules_malformed_critical_cell_not_fatal :
    badSheet 12 2 = CellValue.vstr "2" ∧
    critical_cell_val (badSheet 12 2) = Option.none ∧
    (load_rules_from_sheet2 badSheet).isOk = true := by
  decide

/-- C7 as amended: the loader never validates critical-matrix cells. Whenever
the level-path row, the dimension column and the min-demonstrated table load
successfully, the whole load succeeds, whatever the critical matrix holds:
a cell that is not the number 1 (or the string `"1"`/`"0"`; no locale-digit
normalization is applied here) is silently treated as not critical. -/
theorem load_rules_ignores_critical_cells (ws : Sheet)
    (level_paths dimensions : List String) (md : List (String × Nat))
    (hlp : load_level_paths ws LEVEL_COLS = .ok level_paths)
    (hdims : load_dimensions ws DIM_ROWS = .ok dimensions)
    (hlen : dimensions.length = 8)
    (hmd : load_min_demo ws MIN_DEMO_ROWS [] = .ok md)
    (hchk : check_min_demo_paths level_paths md = .ok ()) :
    load_rules_from_sheet2 ws = .ok
      { dimensions := dimensions, level_paths := level_paths,
        min_demo_by_path := md,
        critical_by_path := load_critical ws level_paths } := by
  simp only [load_rules_from_sheet2, hlp, hdims, hmd, hchk]
  rw [if_neg (by simp [hlen])]

/-- Witness for the amended C7, at the sheet with the malformed cell: every
other stage succeeds, so the load succeeds, the malformed cell contributing
nothing. -/
theorem load_rules_ignores_critical_cells_witness :
    load_rules_from_sheet2 badSheet = .ok
      { dimensions := ["D12", "D13", "D14", "D15", "D16", "D17", "D18", "D19"],
        level_paths := ["L → P1", "L → P2", "L → P3", "L → P4", "L → P5"],
        min_demo_by_path := [("L → P1", 4), ("L → P2", 4), ("L → P3", 4),
                             ("L → P4", 4), ("L → P5", 4)],
        critical_by_path := load_critical badSheet
          ["L → P1", "L → P2", "L → P3", "L → P4", "L → P5"] } := by
  exact load_rules_ignores_critical_cells badSheet
    ["L → P1", "L → P2", "L → P3", "L → P4", "L → P5"]
    ["D12", "D13", "D14", "D15", "D16", "D17", "D18", "D19"]
    [("L → P1", 4), ("L → P2", 4), ("L → P3", 4), ("L → P4", 4), ("L → P5", 4)]
    (by decide) (by decide) (by decide) (by decide) (by decide)

end PromotionPanel
